import Mathlib

/-!
Verification development for the activitysim execution engine.

The development shallowly embeds the parts of the code base the claims
refer to: the traceable-entity registry (tracing), the CLI argument
handling and run driver (cli/run.py), the bad_trips table
(abm/tables/trips.py), the composite-log workflow step
(workflows/steps/composite_log.py), and the adaptive chunk planner.
Dataframes are modelled as lists of rows keyed by an integer index.
-/

deriving instance DecidableEq for Except

/-- A dataframe row: an index value plus named integer-valued columns. -/
structure Row where
  idx : Int
  cols : List (String × Int)
deriving DecidableEq, Repr

/-- Value of column c in row r, if present. -/
def Row.colVal (r : Row) (c : String) : Option Int :=
  r.cols.lookup c

/-- A dataframe: an optional index name, the declared column names, and rows. -/
structure DF where
  indexName : Option String
  columns : List String
  rows : List Row
deriving DecidableEq, Repr

/-- Modelled from the spec: tracing.slice_ids (the tracing module is not in
src, only its tests).  Slicing a dataframe by a named column keeps exactly
the rows whose value in that column is among the given ids; slicing with
column none keeps exactly the rows whose index is among the given ids; a
slicer column not in the dataframe is an error. -/
def slice_ids (df : DF) (ids : List Int) (column : Option String) :
    Except String DF :=
  match column with
  | none =>
      .ok { df with rows := df.rows.filter (fun r => ids.contains r.idx) }
  | some c =>
      if df.columns.contains c then
        let keep : Row → Bool := fun r => (r.colVal c).any (fun v => ids.contains v)
        .ok { df with rows := df.rows.filter keep }
      else
        .error ("slice_ids slicer column " ++ c ++ " not in dataframe")

/-- The traceable-entity registry state: the ordered list of traceable
tables (head is the root table), the traced root id from settings, the
per-table traced ids, and the map from index-column name to owning table. -/
structure TraceState where
  traceableTables : List String
  traceHHId : Option Int
  tableIds : List (String × List Int)
  tableIndexes : List (String × String)
deriving DecidableEq, Repr

/-- The trace set recorded for a table: its traced ids, empty if none. -/
def TraceState.traceSet (st : TraceState) (t : String) : List Int :=
  (st.tableIds.lookup t).getD []

/-- Modelled from the spec: the registry registration operation (the tracing
module is not in src, only its tests).  The trace set is seeded from the
traced root id for the root table and extended by slicing a derived table
on a registered parent index column; a dataset without a usable join path
(no index name, no registered parent column, or root id absent) yields an
empty trace set with a diagnostic message, not an error, and leaves the
state unchanged. -/
def registerTraceableTable (st : TraceState) (name : String) (df : DF) :
    Except String (TraceState × List String) :=
  if st.traceableTables.contains name then
    match df.indexName with
    | none =>
        .ok (st, ["Cant register table " ++ name ++ " without index name"])
    | some idxName =>
        if st.traceableTables.head? = some name then
          match st.traceHHId with
          | none => .ok (st, [])
          | some hh =>
              if df.rows.any (fun r => r.idx = hh) then
                .ok ({ st with
                        tableIds := (name, [hh]) :: st.tableIds,
                        tableIndexes := (idxName, name) :: st.tableIndexes },
                     [])
              else
                .ok (st, ["trace_hh_id " ++ toString hh ++ " not in dataframe"])
        else
          match st.tableIndexes.find? (fun p => df.columns.contains p.1) with
          | none =>
              .ok (st, ["cant find a registered table to slice table " ++ name])
          | some refPair =>
              match slice_ids df (st.traceSet refPair.2) (some refPair.1) with
              | .error e => .error e
              | .ok sliced =>
                  .ok ({ st with
                          tableIds :=
                            (name, sliced.rows.map Row.idx) :: st.tableIds,
                          tableIndexes := (idxName, name) :: st.tableIndexes },
                       [])
  else
    .ok (st, [])

/-- The per-row slicing predicate: the row's value in column c is among ids. -/
def rowValIn (r : Row) (c : String) (ids : List Int) : Bool :=
  (r.colVal c).any (fun v => ids.contains v)

/-- Concrete registry state for the trace-propagation example: households is
the registered root with traced ids R = [1]. -/
def traceStateEx : TraceState :=
  { traceableTables := ["households", "tours"],
    traceHHId := some 1,
    tableIds := [("households", [1])],
    tableIndexes := [("household_id", "households")] }

/-- Concrete tours dataframe: tour ids 10, 11, 12 with household ids 1, 5, 1. -/
def toursDFEx : DF :=
  { indexName := some "tour_id",
    columns := ["household_id"],
    rows := [⟨10, [("household_id", 1)]⟩, ⟨11, [("household_id", 5)]⟩,
             ⟨12, [("household_id", 1)]⟩] }

/-- Registry state for the C2 witness, before any registration. -/
def traceState0 : TraceState :=
  { traceableTables := ["households"],
    traceHHId := some 5,
    tableIds := [],
    tableIndexes := [] }

/-- Households dataframe with no index name, as in the tracing tests. -/
def householdsNoIndexDF : DF :=
  { indexName := none, columns := ["zort"],
    rows := [⟨1, [("zort", 0)]⟩, ⟨2, [("zort", 1)]⟩, ⟨3, [("zort", 2)]⟩] }

/-- CLI arguments relevant to settings overrides (cli/run.py, add_run_args).
none models an absent flag; multiprocess is some (-1) for a bare -m flag
and some n for an explicit process count. -/
structure RunArgs where
  multiprocess : Option Int
  chunk_size : Option Int
  chunk_training_mode : Option String
  households_sample_size : Option Int
  pipeline : Option String
  resume : Option String
deriving DecidableEq, Repr

/-- Python truthiness of an optional integer argument: absent and 0 are falsy. -/
def intArgTruthy : Option Int → Bool
  | none => false
  | some n => n != 0

/-- Python truthiness of an optional string argument: absent and "" are falsy. -/
def strArgTruthy : Option String → Bool
  | none => false
  | some s => s != ""

/-- Engine settings touched by the CLI override block and the run driver. -/
structure Settings where
  multiprocess : Bool
  num_processes : Int
  chunk_size : Int
  chunk_training_mode : String
  households_sample_size : Int
  resume_after : Option String
  pipeline_file_name : String
  memory_profile : Bool
  cleanup_trace_files_on_resume : Bool
deriving DecidableEq, Repr

/-- Fatal configuration error, per the error taxonomy. -/
inductive ConfigError
  | configurationError (msg : String)
deriving DecidableEq, Repr

/-- The settings-override section of handle_standard_args (cli/run.py lines
208-249).  The source has no raise statement in this section and performs
no validation of the argument values; the Except codomain records that the
function returns normally on every input. -/
def handle_standard_args (args : RunArgs) (s0 : Settings) :
    Except ConfigError Settings :=
  let s1 :=
    if intArgTruthy args.multiprocess then
      { s0 with
        multiprocess := true,
        num_processes :=
          match args.multiprocess with
          | some n => if n > 1 then n else s0.num_processes
          | none => s0.num_processes }
    else s0
  let s2 :=
    if intArgTruthy args.chunk_size then
      { s1 with chunk_size := (args.chunk_size).getD s1.chunk_size }
    else s1
  let s3 :=
    match args.chunk_training_mode with
    | some m => { s2 with chunk_training_mode := m }
    | none => s2
  let s4 :=
    match args.households_sample_size with
    | some h => { s3 with households_sample_size := h }
    | none => s3
  let s5 :=
    match args.pipeline with
    | some p => { s4 with pipeline_file_name := p }
    | none => s4
  let s6 :=
    if strArgTruthy args.resume then { s5 with resume_after := args.resume }
    else s5
  .ok s6

/-- An argument record with every flag absent. -/
def emptyArgs : RunArgs :=
  { multiprocess := none, chunk_size := none, chunk_training_mode := none,
    households_sample_size := none, pipeline := none, resume := none }

/-- Baseline settings used by the concrete CLI examples. -/
def baseSettings : Settings :=
  { multiprocess := false, num_processes := 1, chunk_size := 100,
    chunk_training_mode := "training", households_sample_size := 50,
    resume_after := none, pipeline_file_name := "pipeline",
    memory_profile := false, cleanup_trace_files_on_resume := false }

/-- An output file on disk: its name, its extension, and whether it is a
trace file (matched by delete_trace_files). -/
structure OutFile where
  name : String
  ext : String
  isTrace : Bool
deriving DecidableEq, Repr

/-- A file-deletion directive issued by the cleanup phase. -/
inductive CleanupDirective
  | deleteTraceFiles
  | deleteOutputFiles (ext : String) (ignore : List String)
deriving DecidableEq, Repr

/-- Path of the memory-profile log (whale.get_log_file_path in the source). -/
def memProfLogName : String := "memory_profile.csv"

/-- cleanup_output_files (cli/run.py lines 253-269): deletes trace files and
output files with extensions h5, csv, txt, yaml, prof, omx, but passes the
memory-profile log as a csv ignore entry when memory profiling is on. -/
def cleanup_output_files (s : Settings) : List CleanupDirective :=
  let csvIgnore := if s.memory_profile then [memProfLogName] else []
  [ .deleteTraceFiles,
    .deleteOutputFiles "h5" [],
    .deleteOutputFiles "csv" csvIgnore,
    .deleteOutputFiles "txt" [],
    .deleteOutputFiles "yaml" [],
    .deleteOutputFiles "prof" [],
    .deleteOutputFiles "omx" [] ]

/-- The cleanup decision in run (cli/run.py lines 336-340): cleanup all
output files when not resuming; when resuming, delete only trace files and
only if cleanup_trace_files_on_resume is set. -/
def runCleanupPhase (s : Settings) : List CleanupDirective :=
  if strArgTruthy s.resume_after then
    if s.cleanup_trace_files_on_resume then [.deleteTraceFiles] else []
  else
    cleanup_output_files s

/-- Effect of one deletion directive on a file inventory: delete_trace_files
removes trace files; delete_output_files removes files with the given
extension whose name is not in the ignore list. -/
def applyDirective (files : List OutFile) : CleanupDirective → List OutFile
  | .deleteTraceFiles => files.filter (fun f => !f.isTrace)
  | .deleteOutputFiles e ign =>
      files.filter (fun f => !(f.ext == e && !(ign.contains f.name)))

/-- Effect of a directive sequence on a file inventory. -/
def applyDirectives (files : List OutFile) (ds : List CleanupDirective) :
    List OutFile :=
  ds.foldl applyDirective files

/-- The files left on disk after the cleanup phase of run. -/
def runCleanup (s : Settings) (files : List OutFile) : List OutFile :=
  applyDirectives files (runCleanupPhase s)

/-- A model step of the run list: its name and whether its body raises. -/
structure ModelStep where
  name : String
  fails : Bool
deriving DecidableEq, Repr

/-- Observable events of the run driver (cli/run.py run): per-step
execution, elapsed-time reports relative to the recorded start time t0,
the exception log, the end-of-run consolidations, the aggregate timing
summary, and stopping the memory sidecar. -/
inductive RunEvent
  | stepRun (name : String)
  | elapsedTime (label : String) (t0 : Nat)
  | logException
  | consolidateChunkLogs
  | consolidateMemLogs
  | aggregateTimingSummary
  | stopSidecar
deriving DecidableEq, Repr

/-- Sequential step execution inside the try block: steps run in order,
each completed step is recorded, and the first failing step body raises,
abandoning the remaining steps. -/
def runSteps : List ModelStep → Except String Unit × List RunEvent
  | [] => (.ok (), [])
  | st :: rest =>
      if st.fails then (.error st.name, [])
      else
        let r := runSteps rest
        (r.1, .stepRun st.name :: r.2)

/-- The run driver after configuration (cli/run.py lines 386-435): t0 is
recorded, the steps run inside a try block; on an exception the elapsed
time since t0 is reported with the error log and the exception is
re-raised (error result); otherwise the chunk and memory logs are
consolidated, the aggregate timing summary is emitted, the final elapsed
time is reported, the sidecar is stopped if present, and 0 is returned. -/
def runModel (t0 : Nat) (steps : List ModelStep) (sidecar : Bool) :
    Except String Int × List RunEvent :=
  match runSteps steps with
  | (.error e, evs) =>
      (.error e,
       evs ++ [.elapsedTime "all models until this error" t0, .logException])
  | (.ok _, evs) =>
      (.ok 0,
       evs ++ [.consolidateChunkLogs, .consolidateMemLogs,
               .aggregateTimingSummary, .elapsedTime "all models" t0] ++
         (if sidecar then [.stopSidecar] else []))

/-- The two-step run list used by the C6 witness. -/
def stepsEx : List ModelStep :=
  [⟨"initialize", false⟩, ⟨"mode_choice", false⟩]

/-- Chunk-plan failure kinds, per the error taxonomy. -/
inductive ChunkPlanErrorKind
  | invalidChunkPlan
  | missingTrainedPlan
deriving DecidableEq, Repr

/-- Balanced chunk sizes for rowCount rows in numChunks chunks: the first
rowCount mod numChunks chunks carry one extra row. -/
def chunkSizes (rowCount numChunks : Nat) : List Nat :=
  (List.range numChunks).map
    (fun i => if i < rowCount % numChunks then rowCount / numChunks + 1
              else rowCount / numChunks)

/-- Modelled from the spec: the Adaptive Chunk Planner chunk-count
validation (the chunk module is not in src).  A plan request over 0 rows,
or a chunk count that cannot cover the rows without an empty chunk, is
rejected with InvalidChunkPlanError instead of yielding empty chunks. -/
def planChunks (rowCount numChunks : Nat) :
    Except ChunkPlanErrorKind (List Nat) :=
  if rowCount = 0 ∨ numChunks = 0 ∨ rowCount < numChunks then
    .error .invalidChunkPlan
  else
    .ok (chunkSizes rowCount numChunks)

/-- A trips-table row: the trip id and the value of the bad column. -/
structure TripRow where
  trip_id : Int
  badVal : Bool
deriving DecidableEq, Repr

/-- The trips table: whether a bad column exists, and the rows. -/
structure TripsFrame where
  hasBadColumn : Bool
  rows : List TripRow
deriving DecidableEq, Repr

/-- The empty dataframe returned when trips has no bad column. -/
def emptyTripsFrame : TripsFrame :=
  { hasBadColumn := false, rows := [] }

/-- Access of the bad column, which raises when the column is absent. -/
def TripsFrame.badMask (t : TripsFrame) : Except String (List Bool) :=
  if t.hasBadColumn then .ok (t.rows.map (fun r => r.badVal))
  else .error "trips frame has no column bad"

/-- Boolean-mask row selection, pairing rows with mask entries. -/
def maskFilter (rows : List TripRow) (mask : List Bool) : List TripRow :=
  (rows.zip mask).filterMap (fun p => if p.2 then some p.1 else none)

/-- bad_trips (abm/tables/trips.py lines 22-28): if a bad column exists,
select the rows whose bad value is truthy, else return an empty
dataframe. -/
def bad_trips (trips : TripsFrame) : Except String TripsFrame :=
  if trips.hasBadColumn then
    match trips.badMask with
    | .ok mask => .ok { hasBadColumn := true, rows := maskFilter trips.rows mask }
    | .error e => .error e
  else
    .ok emptyTripsFrame

/-- Trips table for the C9 witness: trips 1 and 3 are bad, trip 2 is not. -/
def tripsFrameEx : TripsFrame :=
  { hasBadColumn := true,
    rows := [⟨1, true⟩, ⟨2, false⟩, ⟨3, true⟩] }

/-- Keep the first row for each index key, dropping rows whose key was
already seen (pandas index.duplicated with keep first). -/
def keepFirstAux {β : Type} : List String → List (String × β) →
    List (String × β)
  | _, [] => []
  | seen, q :: rest =>
      if q.1 ∈ seen then keepFirstAux seen rest
      else q :: keepFirstAux (q.1 :: seen) rest

/-- df.loc of the negated duplicated-index mask: keep first occurrences. -/
def dropDuplicatedIndex {β : Type} (l : List (String × β)) :
    List (String × β) :=
  keepFirstAux [] l

/-- The compare modes selected by the sharrow and legacy flags
(workflows/steps/composite_log.py lines 24-28). -/
def compareModes (sharrow legacy : Bool) : List String :=
  (if sharrow then ["compile", "sharrow"] else []) ++
    (if legacy then ["legacy"] else [])

/-- The per-mode log files on disk: a timing log keyed by model_name with
seconds, and a memory log keyed by event with the rss, full_rss and uss
columns; none means the file does not exist. -/
structure LogStore where
  timingLog : String → Option (List (String × Int))
  memLog : String → Option (List (String × (Int × Int × Int)))

/-- The per-mode deduplicated timing series collected by run_step. -/
def collectTimings (fs : LogStore) (sharrow legacy : Bool) :
    List (String × List (String × Int)) :=
  (compareModes sharrow legacy).filterMap
    (fun t => (fs.timingLog t).map (fun df => (t, dropDuplicatedIndex df)))

/-- The per-mode deduplicated memory series collected by run_step. -/
def collectMems (fs : LogStore) (sharrow legacy : Bool) :
    List (String × List (String × (Int × Int × Int))) :=
  (compareModes sharrow legacy).filterMap
    (fun t => (fs.memLog t).map (fun df => (t, dropDuplicatedIndex df)))

/-- The combined timing CSV written by run_step, none when no input timing
log exists (the if timings guard). -/
def compositeTimingOutput (fs : LogStore) (sharrow legacy : Bool) :
    Option (List (String × List (String × Int))) :=
  let ts := collectTimings fs sharrow legacy
  if ts.isEmpty then none else some ts

/-- The combined memory CSV written by run_step, none when no input memory
log exists (the if mems guard). -/
def compositeMemOutput (fs : LogStore) (sharrow legacy : Bool) :
    Option (List (String × List (String × (Int × Int × Int)))) :=
  let ms := collectMems fs sharrow legacy
  if ms.isEmpty then none else some ms

/-- Log store for the C10 witness: only the legacy timing log exists, with
a duplicated model_name index entry; no memory log exists. -/
def logStoreEx : LogStore :=
  { timingLog := fun t =>
      if t = "legacy" then
        some [("school_location", 10), ("school_location", 12),
              ("workplace_location", 20)]
      else none,
    memLog := fun _ => none }

/-- The raw legacy timing log of the C10 witness. -/
def rawTimingEx : List (String × Int) :=
  [("school_location", 10), ("school_location", 12),
   ("workplace_location", 20)]

/-- C1: with households registered as the traceable root carrying traced ids
R, registering a derived table tours with a household_id column records as
the trace set for tours exactly the tour ids whose household_id value lies
in R; and slice_ids by a named column keeps exactly the rows whose value in
that column is among the given ids, while slice_ids with column none keeps
exactly the rows whose index is among the given ids. -/
theorem trace_propagation_exact :
    (∀ (R : List Int) (st : TraceState) (df : DF),
      st.traceableTables = ["households", "tours"] →
      st.tableIds = [("households", R)] →
      st.tableIndexes = [("household_id", "households")] →
      df.indexName = some "tour_id" →
      df.columns.contains "household_id" = true →
      ∃ st2 diags,
        registerTraceableTable st "tours" df = .ok (st2, diags) ∧
        ∀ t : Int, t ∈ st2.traceSet "tours" ↔
          ∃ r, r ∈ df.rows ∧ r.idx = t ∧ rowValIn r "household_id" R = true) ∧
    (∀ (df : DF) (ids : List Int) (c : String) (res : DF),
      df.columns.contains c = true →
      slice_ids df ids (some c) = .ok res →
      ∀ r : Row, r ∈ res.rows ↔ r ∈ df.rows ∧ rowValIn r c ids = true) ∧
    (∀ (df : DF) (ids : List Int) (res : DF),
      slice_ids df ids none = .ok res →
      ∀ r : Row, r ∈ res.rows ↔ r ∈ df.rows ∧ r.idx ∈ ids) := by
  refine ⟨?_, ?_, ?_⟩
  · intro R st df h1 h2 h3 h4 hcol
    have hmem : st.traceableTables.contains "tours" = true := by
      rw [h1]; decide
    have hroot : (st.traceableTables.head? = some "tours") = False := by
      rw [h1]; simp
    have hsl : st.traceSet "households" = R := by
      simp [TraceState.traceSet, h2, List.lookup]
    refine ⟨{ st with
        tableIds := ("tours",
          (df.rows.filter (fun r => rowValIn r "household_id" R)).map Row.idx)
            :: st.tableIds,
        tableIndexes := ("tour_id", "tours") :: st.tableIndexes }, [], ?_, ?_⟩
    · simp only [registerTraceableTable, hmem, if_true, h4, h3, hroot,
        List.find?, hcol, slice_ids, hsl, rowValIn]
      rfl
    · intro t
      simp only [TraceState.traceSet, List.lookup, beq_self_eq_true,
        Option.getD_some, List.mem_map, List.mem_filter]
      constructor
      · rintro ⟨r, ⟨hr, hkeep⟩, hidx⟩
        exact ⟨r, hr, hidx, hkeep⟩
      · rintro ⟨r, hr, hidx, hkeep⟩
        exact ⟨r, ⟨hr, hkeep⟩, hidx⟩
  · intro df ids c res hcol hs r
    simp only [slice_ids, hcol, if_true, Except.ok.injEq] at hs
    subst hs
    simp [List.mem_filter, rowValIn]
  · intro df ids res hs r
    simp only [slice_ids, Except.ok.injEq] at hs
    subst hs
    simp [List.mem_filter, List.elem_iff]

/-- A registration that returns a diagnostic message leaves the registry
state unchanged. -/
lemma register_diag_state_eq :
    ∀ (st st2 : TraceState) (name : String) (df : DF) (diags : List String),
      registerTraceableTable st name df = .ok (st2, diags) → diags ≠ [] →
      st2 = st := by
  intro st st2 name df diags hreg hd
  unfold registerTraceableTable at hreg
  repeat' split at hreg
  all_goals try exact Except.noConfusion hreg
  all_goals simp only [Except.ok.injEq, Prod.mk.injEq] at hreg
  all_goals try exact absurd hreg.2.symm hd
  all_goals exact hreg.1.symm

/-- C2: registering a traceable dataset with no usable join path to the
trace roots — no index name, or a derived table with no registered parent
column, or the traced root id absent from the data — returns normally with
a diagnostic message, records an empty trace set for the dataset, and
leaves the registry state unchanged, so subsequent registrations behave
exactly as they would have without the failed one. -/
theorem no_join_path_empty_trace_set :
    (∀ (st : TraceState) (name : String) (df : DF),
      st.traceableTables.contains name = true →
      df.indexName = none →
      st.tableIds.lookup name = none →
      ∃ d, registerTraceableTable st name df = .ok (st, [d]) ∧
        st.traceSet name = []) ∧
    (∀ (st : TraceState) (name : String) (df : DF) (idxName : String),
      st.traceableTables.contains name = true →
      st.traceableTables.head? ≠ some name →
      df.indexName = some idxName →
      st.tableIndexes.find? (fun p => df.columns.contains p.1) = none →
      st.tableIds.lookup name = none →
      ∃ d, registerTraceableTable st name df = .ok (st, [d]) ∧
        st.traceSet name = []) ∧
    (∀ (st : TraceState) (name : String) (df : DF) (idxName : String) (hh : Int),
      st.traceableTables.contains name = true →
      st.traceableTables.head? = some name →
      df.indexName = some idxName →
      st.traceHHId = some hh →
      df.rows.any (fun r => r.idx = hh) = false →
      st.tableIds.lookup name = none →
      ∃ d, registerTraceableTable st name df = .ok (st, [d]) ∧
        st.traceSet name = []) ∧
    (∀ (st st2 : TraceState) (name name2 : String) (df df2 : DF)
        (diags : List String),
      registerTraceableTable st name df = .ok (st2, diags) → diags ≠ [] →
      registerTraceableTable st2 name2 df2 = registerTraceableTable st name2 df2) := by
  refine ⟨?_, ?_, ?_, ?_⟩
  · intro st name df hc hidx hlk
    refine ⟨"Cant register table " ++ name ++ " without index name", ?_, ?_⟩
    · simp only [registerTraceableTable, hc, if_true, hidx]
    · simp [TraceState.traceSet, hlk]
  · intro st name df idxName hc hhead hidx hfind hlk
    have hr : (st.traceableTables.head? = some name) = False := by
      simp [hhead]
    refine ⟨"cant find a registered table to slice table " ++ name, ?_, ?_⟩
    · simp only [registerTraceableTable, hc, if_true, hidx, hr, if_false, hfind]
    · simp [TraceState.traceSet, hlk]
  · intro st name df idxName hh hc hhead hidx hhid hany hlk
    refine ⟨"trace_hh_id " ++ toString hh ++ " not in dataframe", ?_, ?_⟩
    · simp only [registerTraceableTable, hc, if_true, hidx, hhead, hhid, hany,
        if_false, Bool.false_eq_true]
    · simp [TraceState.traceSet, hlk]
  · intro st st2 name name2 df df2 diags hreg hd
    rw [register_diag_state_eq st st2 name df diags hreg hd]

/-- Witness for C2: registering households with no index name into an empty
registry yields a diagnostic, an empty trace set, and an unchanged state. -/
theorem no_join_path_empty_trace_set_witness :
    ∃ d, registerTraceableTable traceState0 "households" householdsNoIndexDF =
        .ok (traceState0, [d]) ∧
      traceState0.traceSet "households" = [] :=
  no_join_path_empty_trace_set.1 traceState0 "households" householdsNoIndexDF
    (by decide) rfl rfl

/-- Witness for C1 at the spec example: traced households {1}, tours with
household ids [1, 5, 1] at tour ids [10, 11, 12], giving traced tours 10
and 12 but not 11. -/
theorem trace_propagation_exact_witness :
    ∃ st2 diags,
      registerTraceableTable traceStateEx "tours" toursDFEx = .ok (st2, diags) ∧
      (10 : Int) ∈ st2.traceSet "tours" ∧
      (12 : Int) ∈ st2.traceSet "tours" ∧
      ¬ (11 : Int) ∈ st2.traceSet "tours" := by
  obtain ⟨st2, diags, hreg, hiff⟩ :=
    trace_propagation_exact.1 [1] traceStateEx toursDFEx rfl rfl rfl rfl (by decide)
  refine ⟨st2, diags, hreg, ?_, ?_, ?_⟩
  · exact (hiff 10).mpr ⟨⟨10, [("household_id", 1)]⟩, by decide, by decide, by decide⟩
  · exact (hiff 12).mpr ⟨⟨12, [("household_id", 1)]⟩, by decide, by decide, by decide⟩
  · intro h
    exact absurd ((hiff 11).mp h) (by decide)

/-- C3 counterexample: a worker count of 0 together with a negative chunk
budget is not rejected — handle_standard_args returns normally, silently
ignores the worker count of 0, and stores the negative chunk budget into
the settings; no ConfigurationError is produced. -/
theorem cli_validation_counterexample :
    handle_standard_args
        { emptyArgs with multiprocess := some 0, chunk_size := some (-5) }
        baseSettings =
      .ok { baseSettings with chunk_size := -5 } ∧
    ∀ e, handle_standard_args
        { emptyArgs with multiprocess := some 0, chunk_size := some (-5) }
        baseSettings ≠ .error e := by
  refine ⟨by decide, ?_⟩
  intro e h
  rw [show handle_standard_args
      { emptyArgs with multiprocess := some 0, chunk_size := some (-5) }
      baseSettings = .ok { baseSettings with chunk_size := -5 } from by decide] at h
  exact Except.noConfusion h

/-- C3 (amended): handle_standard_args performs no validation of the worker
count or the chunk budget: a worker count of 0 is silently ignored, a
negative worker count enables multiprocess mode without overriding the
process count, a chunk budget of 0 is silently dropped, and a negative
chunk budget is stored into the settings; no ConfigurationError is ever
raised for these inputs. -/
theorem cli_worker_count_and_chunk_budget_not_validated :
    ∀ s : Settings,
      (handle_standard_args { emptyArgs with multiprocess := some 0 } s =
        .ok s) ∧
      (∀ n : Int, n < 1 → n ≠ 0 →
        handle_standard_args { emptyArgs with multiprocess := some n } s =
          .ok { s with multiprocess := true }) ∧
      (handle_standard_args { emptyArgs with chunk_size := some 0 } s =
        .ok s) ∧
      (∀ c : Int, c < 0 →
        handle_standard_args { emptyArgs with chunk_size := some c } s =
          .ok { s with chunk_size := c }) := by
  intro s
  refine ⟨rfl, ?_, rfl, ?_⟩
  · intro n h1 h2
    have hb : (n != 0) = true := by simp [h2]
    have hng : ¬ (n > 1) := by omega
    simp [handle_standard_args, intArgTruthy, strArgTruthy, emptyArgs, hb, hng]
  · intro c hc
    have hb : (c != 0) = true := by simp; omega
    simp [handle_standard_args, intArgTruthy, strArgTruthy, emptyArgs, hb]

/-- Witness for the amended C3 at concrete inputs. -/
theorem cli_worker_count_and_chunk_budget_not_validated_witness :
    handle_standard_args { emptyArgs with multiprocess := some 0 }
        baseSettings = .ok baseSettings ∧
    handle_standard_args { emptyArgs with multiprocess := some (-1) }
        baseSettings = .ok { baseSettings with multiprocess := true } ∧
    handle_standard_args { emptyArgs with chunk_size := some (-5) }
        baseSettings = .ok { baseSettings with chunk_size := -5 } := by
  obtain ⟨h1, h2, h3, h4⟩ :=
    cli_worker_count_and_chunk_budget_not_validated baseSettings
  exact ⟨h1, h2 (-1) (by decide) (by decide), h4 (-5) (by decide)⟩

/-- C8: a command-line chunk size of 0 is silently dropped (settings value
unchanged) because the code tests truthiness, any nonzero chunk size is
applied, and a households sample size of 0 does override the settings
value because the code tests presence. -/
theorem chunk_size_truthiness_vs_sample_size_presence :
    ∀ s : Settings,
      (handle_standard_args { emptyArgs with chunk_size := some 0 } s =
        .ok s) ∧
      (∀ c : Int, c ≠ 0 →
        handle_standard_args { emptyArgs with chunk_size := some c } s =
          .ok { s with chunk_size := c }) ∧
      (handle_standard_args
          { emptyArgs with households_sample_size := some 0 } s =
        .ok { s with households_sample_size := 0 }) := by
  intro s
  refine ⟨rfl, ?_, rfl⟩
  intro c hc
  have hb : (c != 0) = true := by simp [hc]
  simp [handle_standard_args, intArgTruthy, strArgTruthy, emptyArgs, hb]

/-- Witness for C8 at concrete inputs. -/
theorem chunk_size_truthiness_vs_sample_size_presence_witness :
    handle_standard_args { emptyArgs with chunk_size := some 0 }
        baseSettings = .ok baseSettings ∧
    handle_standard_args { emptyArgs with chunk_size := some 64 }
        baseSettings = .ok { baseSettings with chunk_size := 64 } ∧
    handle_standard_args { emptyArgs with households_sample_size := some 0 }
        baseSettings = .ok { baseSettings with households_sample_size := 0 } := by
  obtain ⟨h1, h2, h3⟩ :=
    chunk_size_truthiness_vs_sample_size_presence baseSettings
  exact ⟨h1, h2 64 (by decide), h3⟩

/-- C4 counterexample: with memory profiling enabled and no resume point, a
prior csv file at the memory-profile log path is not deleted by the
cleanup phase, contradicting deletion of all prior output files of the
listed extensions. -/
theorem cleanup_counterexample :
    runCleanup { baseSettings with memory_profile := true }
        [⟨memProfLogName, "csv", false⟩] =
      [⟨memProfLogName, "csv", false⟩] ∧
    strArgTruthy ({ baseSettings with memory_profile := true } : Settings).resume_after
      = false := by
  exact ⟨by decide, by decide⟩

/-- C4 (amended): with a resume point set, the cleanup phase deletes nothing
unless cleanup_trace_files_on_resume is set, in which case it deletes
exactly the trace files; without a resume point, every prior file with
extension h5, csv, txt, yaml, prof or omx is deleted, except a non-trace
csv at the memory-profile log path when memory profiling is enabled. -/
theorem cleanup_output_files_amended :
    ∀ (s : Settings) (files : List OutFile),
      (strArgTruthy s.resume_after = true →
        (s.cleanup_trace_files_on_resume = false →
          runCleanup s files = files) ∧
        (s.cleanup_trace_files_on_resume = true →
          runCleanup s files = files.filter (fun f => !f.isTrace))) ∧
      (strArgTruthy s.resume_after = false →
        ∀ f ∈ files,
          f.ext ∈ (["h5", "csv", "txt", "yaml", "prof", "omx"] : List String) →
          (f ∈ runCleanup s files ↔
            (f.isTrace = false ∧ s.memory_profile = true ∧ f.ext = "csv" ∧
             f.name = memProfLogName))) := by
  intro s files
  constructor
  · intro hres
    constructor
    · intro hflag
      simp [runCleanup, runCleanupPhase, hres, hflag, applyDirectives]
    · intro hflag
      simp [runCleanup, runCleanupPhase, hres, hflag, applyDirectives,
        applyDirective]
  · intro hres f hf hext
    simp only [runCleanup, runCleanupPhase, hres, Bool.false_eq_true,
      if_false, cleanup_output_files, applyDirectives, List.foldl,
      applyDirective, List.mem_filter]
    simp only [List.mem_cons, List.not_mem_nil, or_false] at hext
    by_cases hmp : s.memory_profile <;>
      rcases hext with h | h | h | h | h | h <;>
      simp_all [List.mem_filter, memProfLogName]

/-- Witness for the amended C4: with a resume point and no cleanup flag an
h5 file survives; without a resume point the same h5 file is deleted. -/
theorem cleanup_output_files_amended_witness :
    runCleanup { baseSettings with resume_after := some "mode_choice" }
        [⟨"out.h5", "h5", false⟩] = [⟨"out.h5", "h5", false⟩] ∧
    (⟨"out.h5", "h5", false⟩ : OutFile) ∉
      runCleanup baseSettings [⟨"out.h5", "h5", false⟩] := by
  obtain ⟨h1, _⟩ := cleanup_output_files_amended
    { baseSettings with resume_after := some "mode_choice" }
    [⟨"out.h5", "h5", false⟩]
  obtain ⟨_, h4⟩ := cleanup_output_files_amended baseSettings
    [⟨"out.h5", "h5", false⟩]
  refine ⟨(h1 (by decide)).1 (by decide), ?_⟩
  intro hmem
  have hiff := h4 (by decide) ⟨"out.h5", "h5", false⟩ (by decide) (by decide)
  have hr := hiff.mp hmem
  exact absurd hr.2.1 (by decide)

/-- When no step fails, runSteps succeeds and records each step in order. -/
lemma runSteps_ok (steps : List ModelStep)
    (h : ∀ st ∈ steps, st.fails = false) :
    runSteps steps = (.ok (), steps.map (fun st => RunEvent.stepRun st.name)) := by
  induction steps with
  | nil => rfl
  | cons st rest ih =>
      have hst : st.fails = false := h st (List.mem_cons_self st rest)
      have hrest : ∀ s ∈ rest, s.fails = false :=
        fun s hs => h s (List.mem_cons_of_mem st hs)
      simp [runSteps, hst, ih hrest]

/-- When some step fails, runSteps raises and no consolidation event ever
appears among the step events. -/
lemma runSteps_fail (steps : List ModelStep)
    (h : ∃ st ∈ steps, st.fails = true) :
    ∃ e evs, runSteps steps = (.error e, evs) := by
  induction steps with
  | nil => simp at h
  | cons st rest ih =>
      by_cases hst : st.fails = true
      · exact ⟨st.name, [], by simp [runSteps, hst]⟩
      · obtain ⟨s, hs, hsf⟩ := h
        rcases List.mem_cons.mp hs with heq | hmem
        · exact absurd (heq ▸ hsf) hst
        · obtain ⟨e, evs, hrec⟩ := ih ⟨s, hmem, hsf⟩
          refine ⟨e, .stepRun st.name :: evs, ?_⟩
          simp [runSteps, hst, hrec]

/-- Step events contain no consolidation, logging or summary events. -/
lemma runSteps_events_are_stepRun (steps : List ModelStep) :
    ∀ ev ∈ (runSteps steps).2, ∃ n, ev = RunEvent.stepRun n := by
  induction steps with
  | nil => simp [runSteps]
  | cons st rest ih =>
      intro ev hev
      by_cases hst : st.fails = true
      · simp [runSteps, hst] at hev
      · simp only [runSteps, hst, Bool.false_eq_true, if_false,
          List.mem_cons] at hev
        rcases hev with heq | hmem
        · exact ⟨st.name, heq⟩
        · exact ih ev hmem

/-- C5: when a step body raises, the run reports the elapsed time since the
run start together with the error log, re-raises the exception (an error
result), and performs no end-of-run consolidation of chunk or memory logs. -/
theorem run_failure_reports_elapsed_and_skips_consolidation :
    ∀ (t0 : Nat) (steps : List ModelStep) (sidecar : Bool),
      (∃ st ∈ steps, st.fails = true) →
      ∃ e evs, runModel t0 steps sidecar = (.error e, evs) ∧
        RunEvent.elapsedTime "all models until this error" t0 ∈ evs ∧
        RunEvent.logException ∈ evs ∧
        RunEvent.consolidateChunkLogs ∉ evs ∧
        RunEvent.consolidateMemLogs ∉ evs := by
  intro t0 steps sidecar h
  obtain ⟨e, evs0, hrs⟩ := runSteps_fail steps h
  refine ⟨e, evs0 ++ [.elapsedTime "all models until this error" t0,
    .logException], ?_, ?_, ?_, ?_, ?_⟩
  · simp [runModel, hrs]
  · simp
  · simp
  · intro hmem
    rcases List.mem_append.mp hmem with h1 | h1
    · obtain ⟨n, hn⟩ := runSteps_events_are_stepRun steps
        RunEvent.consolidateChunkLogs (by rw [hrs] at *; exact h1)
      exact RunEvent.noConfusion hn
    · simp at h1
  · intro hmem
    rcases List.mem_append.mp hmem with h1 | h1
    · obtain ⟨n, hn⟩ := runSteps_events_are_stepRun steps
        RunEvent.consolidateMemLogs (by rw [hrs] at *; exact h1)
      exact RunEvent.noConfusion hn
    · simp at h1

/-- Witness for C5: a two-step run whose second step fails. -/
theorem run_failure_reports_elapsed_and_skips_consolidation_witness :
    ∃ e evs,
      runModel 7 [⟨"initialize", false⟩, ⟨"mode_choice", true⟩] false =
        (.error e, evs) ∧
      RunEvent.elapsedTime "all models until this error" 7 ∈ evs ∧
      RunEvent.logException ∈ evs ∧
      RunEvent.consolidateChunkLogs ∉ evs ∧
      RunEvent.consolidateMemLogs ∉ evs :=
  run_failure_reports_elapsed_and_skips_consolidation 7
    [⟨"initialize", false⟩, ⟨"mode_choice", true⟩] false
    ⟨⟨"mode_choice", true⟩, by decide, rfl⟩

/-- C6: when every step completes, the run returns 0 and emits each
consolidated end-of-run summary exactly once, after the last step. -/
theorem run_success_consolidates_once :
    ∀ (t0 : Nat) (steps : List ModelStep) (sidecar : Bool),
      (∀ st ∈ steps, st.fails = false) →
      (runModel t0 steps sidecar).1 = .ok 0 ∧
      (runModel t0 steps sidecar).2 =
        (steps.map fun st => RunEvent.stepRun st.name) ++
          [.consolidateChunkLogs, .consolidateMemLogs,
           .aggregateTimingSummary, .elapsedTime "all models" t0] ++
          (if sidecar then [.stopSidecar] else []) ∧
      (runModel t0 steps sidecar).2.count .consolidateChunkLogs = 1 ∧
      (runModel t0 steps sidecar).2.count .consolidateMemLogs = 1 ∧
      (runModel t0 steps sidecar).2.count .aggregateTimingSummary = 1 := by
  intro t0 steps sidecar h
  have hr := runSteps_ok steps h
  have hm : runModel t0 steps sidecar =
      (.ok 0,
       (steps.map fun st => RunEvent.stepRun st.name) ++
         [.consolidateChunkLogs, .consolidateMemLogs,
          .aggregateTimingSummary, .elapsedTime "all models" t0] ++
         (if sidecar then [.stopSidecar] else [])) := by
    simp [runModel, hr]
  rw [hm]
  refine ⟨rfl, rfl, ?_, ?_, ?_⟩ <;>
    cases sidecar <;>
      simp [List.count_append, List.count_cons, List.count_nil,
        List.count_eq_zero, List.mem_map]

/-- Witness for C6: a two-step run with no failures. -/
theorem run_success_consolidates_once_witness :
    (runModel 7 stepsEx true).1 = .ok 0 ∧
    (runModel 7 stepsEx true).2 =
      (stepsEx.map fun st => RunEvent.stepRun st.name) ++
        [.consolidateChunkLogs, .consolidateMemLogs,
         .aggregateTimingSummary, .elapsedTime "all models" 7] ++
        (if true then [.stopSidecar] else []) ∧
    (runModel 7 stepsEx true).2.count .consolidateChunkLogs = 1 ∧
    (runModel 7 stepsEx true).2.count .consolidateMemLogs = 1 ∧
    (runModel 7 stepsEx true).2.count .aggregateTimingSummary = 1 :=
  run_success_consolidates_once 7 stepsEx true (by decide)

/-- C7: a chunk plan request over a dataset of 0 rows fails with a chunk
plan error and yields no chunks; more generally every requested chunk
count that would produce an empty chunk is rejected with
InvalidChunkPlanError, and any accepted plan contains no empty chunk and
has exactly the requested number of chunks. -/
theorem zero_row_chunk_plan_rejected :
    (∀ n : Nat, planChunks 0 n = .error .invalidChunkPlan) ∧
    (∀ r n : Nat, 0 ∈ chunkSizes r n →
      planChunks r n = .error .invalidChunkPlan) ∧
    (∀ (r n : Nat) (sizes : List Nat), planChunks r n = .ok sizes →
      0 ∉ sizes ∧ sizes.length = n) := by
  refine ⟨?_, ?_, ?_⟩
  · intro n
    simp [planChunks]
  · intro r n h0
    simp only [chunkSizes, List.mem_map, List.mem_range] at h0
    obtain ⟨i, hi, hval⟩ := h0
    have hn : 0 < n := Nat.lt_of_le_of_lt (Nat.zero_le i) hi
    by_cases hlt : i < r % n
    · simp [hlt] at hval
    · simp only [hlt, if_false] at hval
      have hr : r / n = 0 := hval
      have hlt2 : r < n := (Nat.div_eq_zero_iff hn).mp hr
      simp [planChunks, hlt2]
  · intro r n sizes hok
    by_cases hc : r = 0 ∨ n = 0 ∨ r < n
    · simp [planChunks, hc] at hok
    · push_neg at hc
      obtain ⟨hr0, hn0, hge⟩ := hc
      simp only [planChunks, hr0, hn0, Nat.not_lt.mpr hge, or_self,
        if_false, Except.ok.injEq, false_or] at hok
      constructor
      · intro h0
        rw [← hok] at h0
        simp only [chunkSizes, List.mem_map, List.mem_range] at h0
        obtain ⟨i, hi, hval⟩ := h0
        have hn : 0 < n := Nat.pos_of_ne_zero hn0
        have hdiv : 0 < r / n := Nat.div_pos hge hn
        by_cases hlt : i < r % n
        · simp [hlt] at hval
        · simp only [hlt, if_false] at hval
          omega
      · rw [← hok]
        simp [chunkSizes]

/-- Witness for C7 at concrete inputs: 0 rows rejected; 3 chunks over 2
rows would contain an empty chunk and are rejected; 2 chunks over 5 rows
are accepted with no empty chunk. -/
theorem zero_row_chunk_plan_rejected_witness :
    planChunks 0 4 = .error .invalidChunkPlan ∧
    planChunks 2 3 = .error .invalidChunkPlan ∧
    (0 ∉ chunkSizes 5 2 ∧ (chunkSizes 5 2).length = 2) := by
  obtain ⟨h1, h2, h3⟩ := zero_row_chunk_plan_rejected
  exact ⟨h1 4, h2 2 3 (by decide), h3 5 2 (chunkSizes 5 2) (by decide)⟩

/-- Selecting rows by the mask of their own bad values is filtering. -/
lemma maskFilter_self (rows : List TripRow) :
    maskFilter rows (rows.map (fun r => r.badVal)) =
      rows.filter (fun r => r.badVal) := by
  induction rows with
  | nil => rfl
  | cons r rest ih =>
      by_cases hb : r.badVal = true <;>
        simp [maskFilter, List.filter, hb, ← ih, List.zip_map_right]

/-- C9: bad_trips never raises; when a bad column exists the result is
exactly the rows whose bad value is truthy; when no bad column exists the
result is the empty dataframe; and the result rows are always an
order-preserving selection from the input, which is left unmodified. -/
theorem bad_trips_exact :
    ∀ t : TripsFrame,
      (∃ res, bad_trips t = .ok res ∧ res.rows.Sublist t.rows) ∧
      (t.hasBadColumn = true →
        bad_trips t =
          .ok { hasBadColumn := true,
                rows := t.rows.filter (fun r => r.badVal) } ∧
        ∀ r : TripRow, r ∈ t.rows.filter (fun r => r.badVal) ↔
          r ∈ t.rows ∧ r.badVal = true) ∧
      (t.hasBadColumn = false →
        bad_trips t = .ok emptyTripsFrame ∧ emptyTripsFrame.rows = []) := by
  intro t
  by_cases hb : t.hasBadColumn = true
  · have hmain : bad_trips t =
        .ok { hasBadColumn := true,
              rows := t.rows.filter (fun r => r.badVal) } := by
      simp [bad_trips, TripsFrame.badMask, hb, maskFilter_self]
    refine ⟨⟨_, hmain, List.filter_sublist _⟩, ?_, ?_⟩
    · intro _
      refine ⟨hmain, ?_⟩
      intro r
      simp [List.mem_filter]
    · intro hf
      exact absurd hb (by simp [hf])
  · have hf : t.hasBadColumn = false := by simpa using hb
    have hmain : bad_trips t = .ok emptyTripsFrame := by
      simp [bad_trips, hf]
    refine ⟨⟨_, hmain, by simp [emptyTripsFrame]⟩, ?_, ?_⟩
    · intro h
      exact absurd h hb
    · intro _
      exact ⟨hmain, rfl⟩

/-- Witness for C9: with a bad column, exactly the bad rows are returned;
with no bad column, the empty dataframe is returned. -/
theorem bad_trips_exact_witness :
    bad_trips tripsFrameEx =
      .ok { hasBadColumn := true,
            rows := tripsFrameEx.rows.filter (fun r => r.badVal) } ∧
    bad_trips { hasBadColumn := false, rows := tripsFrameEx.rows } =
      .ok emptyTripsFrame := by
  refine ⟨((bad_trips_exact tripsFrameEx).2.1 rfl).1, ?_⟩
  exact ((bad_trips_exact
    { hasBadColumn := false, rows := tripsFrameEx.rows }).2.2 rfl).1

/-- Every kept row has a key outside the already-seen set. -/
lemma keepFirstAux_fst_not_mem {β : Type} :
    ∀ (l : List (String × β)) (seen : List String) (p : String × β),
      p ∈ keepFirstAux seen l → p.1 ∉ seen := by
  intro l
  induction l with
  | nil =>
      intro seen p hp
      simp [keepFirstAux] at hp
  | cons q rest ih =>
      intro seen p hp
      by_cases hq : q.1 ∈ seen
      · rw [keepFirstAux, if_pos hq] at hp
        exact ih seen p hp
      · rw [keepFirstAux, if_neg hq] at hp
        rcases List.mem_cons.mp hp with heq | hmem
        · rw [heq]; exact hq
        · have := ih (q.1 :: seen) p hmem
          exact fun hin => this (List.mem_cons_of_mem q.1 hin)

/-- The kept rows have pairwise distinct keys. -/
lemma keepFirstAux_nodup {β : Type} :
    ∀ (l : List (String × β)) (seen : List String),
      ((keepFirstAux seen l).map Prod.fst).Nodup := by
  intro l
  induction l with
  | nil =>
      intro seen
      simp [keepFirstAux]
  | cons q rest ih =>
      intro seen
      by_cases hq : q.1 ∈ seen
      · rw [keepFirstAux, if_pos hq]
        exact ih seen
      · rw [keepFirstAux, if_neg hq]
        simp only [List.map_cons, List.nodup_cons]
        refine ⟨?_, ih (q.1 :: seen)⟩
        intro hmem
        obtain ⟨p, hp, hfst⟩ := List.mem_map.mp hmem
        have := keepFirstAux_fst_not_mem rest (q.1 :: seen) p hp
        exact this (hfst ▸ List.mem_cons_self q.1 seen)

/-- Keeping first occurrences preserves the first-match lookup of every
key not already seen. -/
lemma keepFirstAux_lookup {β : Type} :
    ∀ (l : List (String × β)) (seen : List String) (k : String), k ∉ seen →
      (keepFirstAux seen l).lookup k = l.lookup k := by
  intro l
  induction l with
  | nil =>
      intro seen k _
      rfl
  | cons q rest ih =>
      intro seen k hk
      obtain ⟨a, b⟩ := q
      by_cases hq : a ∈ seen
      · have hne : (k == a) = false := by
          simp only [beq_eq_false_iff_ne, ne_eq]
          intro h
          exact hk (h ▸ hq)
        rw [keepFirstAux, if_pos hq, List.lookup_cons, hne]
        · exact ih seen k hk
      · by_cases hka : k = a
        · rw [keepFirstAux, if_neg hq, List.lookup_cons, List.lookup_cons]
          have : (k == a) = true := by simp [hka]
          rw [this]
        · have hne : (k == a) = false := by simp [hka]
          have hk2 : k ∉ a :: seen := by
            intro h
            rcases List.mem_cons.mp h with h1 | h1
            · exact hka h1
            · exact hk h1
          rw [keepFirstAux, if_neg hq, List.lookup_cons, List.lookup_cons, hne]
          exact ih (a :: seen) k hk2

/-- The kept rows form an order-preserving selection of the input. -/
lemma keepFirstAux_sublist {β : Type} :
    ∀ (l : List (String × β)) (seen : List String),
      (keepFirstAux seen l).Sublist l := by
  intro l
  induction l with
  | nil =>
      intro seen
      exact List.Sublist.refl []
  | cons q rest ih =>
      intro seen
      by_cases hq : q.1 ∈ seen
      · rw [keepFirstAux, if_pos hq]
        exact List.Sublist.cons q (ih seen)
      · rw [keepFirstAux, if_neg hq]
        exact List.Sublist.cons₂ q (ih (q.1 :: seen))

/-- C10: the composite-log step writes a combined timing (respectively
memory) CSV exactly when some per-mode input log exists; every series in a
written output is the input log with rows of duplicated index dropped,
keeping the first occurrence — so it has pairwise distinct index keys,
preserves every first-match lookup, and is an order-preserving selection
of the input rows. -/
theorem composite_log_dedup_and_write_condition :
    (∀ (fs : LogStore) (sharrow legacy : Bool),
      (compositeTimingOutput fs sharrow legacy = none ↔
        ∀ t ∈ compareModes sharrow legacy, fs.timingLog t = none) ∧
      (compositeMemOutput fs sharrow legacy = none ↔
        ∀ t ∈ compareModes sharrow legacy, fs.memLog t = none) ∧
      (∀ out, compositeTimingOutput fs sharrow legacy = some out →
        ∀ t df, (t, df) ∈ out →
          ∃ raw, fs.timingLog t = some raw ∧ df = dropDuplicatedIndex raw) ∧
      (∀ out, compositeMemOutput fs sharrow legacy = some out →
        ∀ t df, (t, df) ∈ out →
          ∃ raw, fs.memLog t = some raw ∧ df = dropDuplicatedIndex raw)) ∧
    (∀ (β : Type) (l : List (String × β)),
      ((dropDuplicatedIndex l).map Prod.fst).Nodup ∧
      (∀ k, (dropDuplicatedIndex l).lookup k = l.lookup k) ∧
      (dropDuplicatedIndex l).Sublist l) := by
  constructor
  · intro fs sharrow legacy
    refine ⟨?_, ?_, ?_, ?_⟩
    · constructor
      · intro h t ht
        have he : (collectTimings fs sharrow legacy).isEmpty = true := by
          by_contra hne
          simp [compositeTimingOutput, hne] at h
        rw [List.isEmpty_iff, collectTimings, List.filterMap_eq_nil_iff] at he
        have := he t ht
        simpa using this
      · intro h
        have he : (collectTimings fs sharrow legacy).isEmpty = true := by
          rw [List.isEmpty_iff, collectTimings, List.filterMap_eq_nil_iff]
          intro t ht
          simp [h t ht]
        simp [compositeTimingOutput, he]
    · constructor
      · intro h t ht
        have he : (collectMems fs sharrow legacy).isEmpty = true := by
          by_contra hne
          simp [compositeMemOutput, hne] at h
        rw [List.isEmpty_iff, collectMems, List.filterMap_eq_nil_iff] at he
        have := he t ht
        simpa using this
      · intro h
        have he : (collectMems fs sharrow legacy).isEmpty = true := by
          rw [List.isEmpty_iff, collectMems, List.filterMap_eq_nil_iff]
          intro t ht
          simp [h t ht]
        simp [compositeMemOutput, he]
    · intro out hout t df hmem
      have hsome : collectTimings fs sharrow legacy = out := by
        by_cases he : (collectTimings fs sharrow legacy).isEmpty
        · simp [compositeTimingOutput, he] at hout
        · simpa [compositeTimingOutput, he] using hout
      rw [← hsome] at hmem
      obtain ⟨a, ha, hfa⟩ := List.mem_filterMap.mp hmem
      obtain ⟨raw, hraw, heq⟩ := Option.map_eq_some'.mp hfa
      obtain ⟨h1, h2⟩ := Prod.mk.injEq .. ▸ heq
      exact ⟨raw, h1 ▸ hraw, h2.symm⟩
    · intro out hout t df hmem
      have hsome : collectMems fs sharrow legacy = out := by
        by_cases he : (collectMems fs sharrow legacy).isEmpty
        · simp [compositeMemOutput, he] at hout
        · simpa [compositeMemOutput, he] using hout
      rw [← hsome] at hmem
      obtain ⟨a, ha, hfa⟩ := List.mem_filterMap.mp hmem
      obtain ⟨raw, hraw, heq⟩ := Option.map_eq_some'.mp hfa
      obtain ⟨h1, h2⟩ := Prod.mk.injEq .. ▸ heq
      exact ⟨raw, h1 ▸ hraw, h2.symm⟩
  · intro β l
    exact ⟨keepFirstAux_nodup l [], fun k => keepFirstAux_lookup l [] k
      (List.not_mem_nil k), keepFirstAux_sublist l []⟩

/-- Witness for C10: no memory log exists so no combined memory CSV is
written, the combined timing CSV is written, and deduplication keeps the
first school_location row. -/
theorem composite_log_dedup_and_write_condition_witness :
    compositeMemOutput logStoreEx false true = none ∧
    compositeTimingOutput logStoreEx false true ≠ none ∧
    ((dropDuplicatedIndex rawTimingEx).map Prod.fst).Nodup ∧
    (dropDuplicatedIndex rawTimingEx).lookup "school_location" = some 10 := by
  obtain ⟨hmain, hdedup⟩ := composite_log_dedup_and_write_condition
  obtain ⟨ht, hm, _, _⟩ := hmain logStoreEx false true
  refine ⟨?_, ?_, ?_, ?_⟩
  · exact hm.mpr (by decide)
  · intro h
    have := ht.mp h "legacy" (by decide)
    exact absurd this (by decide)
  · exact (hdedup Int rawTimingEx).1
  · exact ((hdedup Int rawTimingEx).2.1 "school_location").trans (by decide)
